import Mathlib

/-!
Verification of the TheMuse-API-ETL pipeline (src/py_run.py) against its
natural-language specification.

The embedding models the Python values the code actually manipulates:
a raw job listing is a mapping whose string-valued fields may be absent
(`Option String`), whose `company`/`locations` sub-objects are string-keyed
mappings rendered as association lists.  Python's `None` is `Option.none`;
a Python exception raised during extraction is an `Except.error`.
Python string operations used by the code (`s[:10]`, `',' in s`,
`s.split(',')`) are modelled character-wise on `String.data`, matching
CPython semantics: slicing is by code point, `split` with an explicit
separator splits on every occurrence and keeps empty parts, and tuple
unpacking of a list whose length is not 2 raises `ValueError`.
-/

/-- A Python dict with string keys and string values, as an association
list (first binding wins, as in a dict there is at most one). -/
abbrev PyDict := List (String × String)

/-- Python `d.get(k)`: `some v` when the key is bound, `none` otherwise. -/
def pyDictGet (d : PyDict) (k : String) : Option String :=
  (d.find? (fun p => p.1 == k)).map (fun p => p.2)

/-- Python `s[:n]` on a string: the first `n` characters (the whole string
when it is shorter). -/
def pyTake (s : String) (n : Nat) : String :=
  String.mk (s.data.take n)

/-- Python `c in s` for a single-character needle: membership of the
character in the string. -/
def pyContains (s : String) (c : Char) : Bool :=
  decide (c ∈ s.data)

/-- Character-wise split: Python `s.split(sep)` for a one-character `sep`
splits at every occurrence and keeps empty pieces, so a list with `k`
occurrences of `c` yields `k + 1` pieces. -/
def splitChar (c : Char) : List Char → List (List Char)
  | [] => [[]]
  | x :: xs =>
    if x = c then [] :: splitChar c xs
    else
      match splitChar c xs with
      | [] => [[x]]
      | h :: t => (x :: h) :: t

/-- Python `s.split(c)` on a string. -/
def pySplit (s : String) (c : Char) : List String :=
  (splitChar c s.data).map String.mk

/-- One element of `data['results']`: the fields of a raw listing that
`transform_data` reads.  Every field may be absent. -/
structure RawJob where
  publication_date : Option String
  type : Option String
  name : Option String
  company : Option PyDict
  locations : Option (List PyDict)
deriving DecidableEq, Repr

/-- The Python exceptions `transform_data` can raise while extracting one
record (they abort the whole build; the `except` clause re-raises). -/
inductive ExtractError where
  /-- `TypeError`: `job.get('publication_date')` was `None` and was sliced. -/
  | noneSlice
  /-- `TypeError`: `',' in job_location` with `job_location = None`. -/
  | noneContains
  /-- `ValueError`: unpacking the split result into `(city, country)` when
  it does not have exactly two elements; carries the actual length. -/
  | unpackMismatch (n : Nat)
deriving DecidableEq, Repr

/-- One row of the output DataFrame.  Fields are Python objects: either a
string or `None` (`Option.none`). -/
structure OutputRow where
  publication_date : Option String
  job_type : Option String
  job : Option String
  company : Option String
  city : Option String
  country : Option String
deriving DecidableEq, Repr

/-- Line 72: `job['company'].get('name') if job.get('company') else 'N/A'`.
`job.get('company')` is falsy when the key is absent, or bound to `None`,
or bound to the empty dict `{}` — all three give the string `'N/A'`. -/
def company_field (job : RawJob) : Option String :=
  match job.company with
  | some d => if d.isEmpty then some "N/A" else pyDictGet d "name"
  | none => some "N/A"

/-- Line 73: `job['locations'][0].get('name') if job.get('locations') else 'N/A'`.
A present, non-empty list is truthy; an absent or empty list gives `'N/A'`.
The result is `none` (Python `None`) when the first location lacks `name`. -/
def location_field (job : RawJob) : Option String :=
  match job.locations with
  | some (l0 :: _) => pyDictGet l0 "name"
  | _ => some "N/A"

/-- Line 74: `job_location.split(',') if ',' in job_location else ('N/A','N/A')`,
unpacked into `(job_city, job_country)`.  `split(',')` splits on EVERY
comma, so when the string holds more than one comma the unpacking raises
`ValueError`. -/
def split_location (job_location : String) : Except ExtractError (String × String) :=
  if pyContains job_location ',' then
    match pySplit job_location ',' with
    | [a, b] => Except.ok (a, b)
    | parts => Except.error (.unpackMismatch parts.length)
  else
    Except.ok ("N/A", "N/A")

/-- Lines 68–80: extraction of one row from one raw record.  Line 69
slices `job.get('publication_date')` without a presence check, so an
absent key raises `TypeError` before anything else. -/
def extract_row (job : RawJob) : Except ExtractError OutputRow :=
  match job.publication_date with
  | none => Except.error .noneSlice
  | some pd =>
    match location_field job with
    | none => Except.error .noneContains
    | some job_location =>
      match split_location job_location with
      | Except.error e => Except.error e
      | Except.ok (job_city, job_country) =>
        Except.ok ⟨some (pyTake pd 10), job.type, job.name,
                   company_field job, some job_city, some job_country⟩

/-- The column list of line 60's `pd.DataFrame(columns = [...])`. -/
def output_columns : List String :=
  ["publication_date", "job_type", "job", "company", "city", "country"]

/-- The DataFrame `transform_data` builds: the fixed column list plus the
accumulated rows. -/
structure OutputTable where
  cols : List String
  rows : List OutputRow
deriving DecidableEq, Repr

/-- The loop of lines 68–81: extract each record in order, appending its
row (`pd.concat`); the first exception aborts the whole build. -/
def transform_loop : List RawJob → List OutputRow → Except ExtractError (List OutputRow)
  | [], acc => Except.ok acc
  | job :: rest, acc =>
    match extract_row job with
    | Except.error e => Except.error e
    | Except.ok row => transform_loop rest (acc ++ [row])

/-- Lines 44–87: `transform_data`, applied to the `data['results']` list.
All-or-nothing: any extraction failure is re-raised and no DataFrame is
returned. -/
def transform_data (results : List RawJob) : Except ExtractError OutputTable :=
  match transform_loop results [] with
  | Except.error e => Except.error e
  | Except.ok rows => Except.ok ⟨output_columns, rows⟩

/-- Line 131: the argument list passed to `subprocess.run`.  The `bucket`
and `folder` parameters of `upload_to_s3` do not occur in it; the
destination URI is the hardcoded literal. -/
def upload_command (file_name bucket folder : String) : List String :=
  ["aws", "s3", "cp", file_name, "s3://py-project-jobs-s3bucket/input/jobs.csv"]

/-- Python's `CompletedProcess`: the argument list and the exit status of
the finished process. -/
structure CompletedProcess where
  args : List String
  returncode : Int
deriving DecidableEq, Repr

/-- `subprocess.run(cmd)` with the default `check=False`: whatever the
process exits with, the call returns a `CompletedProcess` carrying that
status and raises nothing. -/
def subprocess_run (cmd : List String) (exit_status : Int) : CompletedProcess :=
  ⟨cmd, exit_status⟩

/-- Lines 111–137: `upload_to_s3` runs the command and ignores the
returned `CompletedProcess`; it never inspects the exit status, so it
returns normally (Python `None`) for every exit status. -/
def upload_to_s3 (file_name bucket folder : String) (exit_status : Int) :
    Except String Unit :=
  Except.ok (let r := subprocess_run (upload_command file_name bucket folder) exit_status
             ())

/-! ## Concrete records used by the witnesses and counterexamples -/

/-- The spec's own test record: first location `"New York, NY, USA"`. -/
def nyJob : RawJob :=
  ⟨some "2023-05-01T12:00:00Z", some "External", some "Engineer", none,
   some [[("name", "New York, NY, USA")]]⟩

/-- The spec's `"Austin,USA"` test record (exactly one comma). -/
def austinJob : RawJob :=
  ⟨some "2023-05-01T12:00:00Z", some "External", some "Engineer", none,
   some [[("name", "Austin,USA")]]⟩

/-- A record with `company: {}` (present, empty) — falsy in Python. -/
def emptyCompanyJob : RawJob :=
  ⟨some "2023-06-02T08:30:00Z", some "External", some "Analyst", some [],
   some [[("name", "Remote")]]⟩

/-- A record whose `company` is present, non-empty, and has a `name`. -/
def namedCompanyJob : RawJob :=
  ⟨some "2023-06-02T08:30:00Z", some "External", some "Analyst",
   some [("name", "Acme")], some [[("name", "Remote")]]⟩

/-- A valid record lacking `type`, `name`, `company` and `locations`. -/
def bareJob : RawJob :=
  ⟨some "2024-01-15T00:00:00Z", none, none, none, none⟩

/-- A record with `locations: []` (present, empty). -/
def noLocationsJob : RawJob :=
  ⟨some "2024-01-15T00:00:00Z", some "External", some "Dev", none, some []⟩

/-- A record without `publication_date`: line 69 raises `TypeError`. -/
def noDateJob : RawJob :=
  ⟨none, some "External", some "Dev", none, none⟩

/-- A record whose first location exists but has no `name` key. -/
def noNameLocationJob : RawJob :=
  ⟨some "2024-01-15T00:00:00Z", none, none, none, some [[("country", "USA")]]⟩

/-- The row extracted from `austinJob`. -/
def austinRow : OutputRow :=
  ⟨some "2023-05-01", some "External", some "Engineer", some "N/A",
   some "Austin", some "USA"⟩

/-- The row extracted from `namedCompanyJob`. -/
def namedCompanyRow : OutputRow :=
  ⟨some "2023-06-02", some "External", some "Analyst", some "Acme",
   some "N/A", some "N/A"⟩

/-- The row extracted from `bareJob`. -/
def bareRow : OutputRow :=
  ⟨some "2024-01-15", none, none, some "N/A", some "N/A", some "N/A"⟩

/-- The row extracted from `noLocationsJob`. -/
def noLocationsRow : OutputRow :=
  ⟨some "2024-01-15", some "External", some "Dev", some "N/A",
   some "N/A", some "N/A"⟩

/-- The spec's abort test: three valid records then one lacking
`publication_date`. -/
def c3Collection : List RawJob :=
  [austinJob, bareJob, namedCompanyJob, noDateJob]

/-- A well-formed two-record collection. -/
def c4Collection : List RawJob :=
  [austinJob, bareJob]


/-! ## Helper lemmas about the character-wise split -/

theorem splitChar_ne_nil (c : Char) (l : List Char) : splitChar c l ≠ [] := by
  induction l with
  | nil => simp [splitChar]
  | cons x xs ih =>
    rw [splitChar]
    by_cases h : x = c
    · simp [h]
    · simp only [if_neg h]
      rcases hs : splitChar c xs with _ | ⟨hd, tl⟩
      · exact absurd hs ih
      · simp

theorem splitChar_of_not_mem {c : Char} {l : List Char} (h : c ∉ l) :
    splitChar c l = [l] := by
  induction l with
  | nil => rfl
  | cons x xs ih =>
    have hx : ¬ x = c := fun hxc => h (hxc ▸ List.mem_cons_self x xs)
    have hxs : c ∉ xs := fun hm => h (List.mem_cons_of_mem x hm)
    rw [splitChar, if_neg hx, ih hxs]

theorem splitChar_append {c : Char} {a : List Char} (b : List Char) (h : c ∉ a) :
    splitChar c (a ++ c :: b) = a :: splitChar c b := by
  induction a with
  | nil => simp [splitChar]
  | cons x xs ih =>
    have hx : ¬ x = c := fun hxc => h (hxc ▸ List.mem_cons_self x xs)
    have hxs : c ∉ xs := fun hm => h (List.mem_cons_of_mem x hm)
    rw [List.cons_append, splitChar, if_neg hx, ih hxs]

theorem length_splitChar (c : Char) (l : List Char) :
    (splitChar c l).length = l.count c + 1 := by
  induction l with
  | nil => simp [splitChar]
  | cons x xs ih =>
    rw [splitChar]
    by_cases h : x = c
    · subst h
      simp [List.count_cons_self, ih]
    · rw [if_neg h]
      rcases hs : splitChar c xs with _ | ⟨hd, tl⟩
      · exact absurd hs (splitChar_ne_nil c xs)
      · have := ih
        rw [hs] at this
        simp only [List.length_cons] at this ⊢
        rw [List.count_cons_of_ne (fun hc => h hc.symm)]
        omega

/-! ## Anatomy of a successful extraction -/

theorem extract_row_ok_anatomy {job : RawJob} {row : OutputRow}
    (h : extract_row job = Except.ok row) :
    ∃ pd loc c k,
      job.publication_date = some pd ∧
      location_field job = some loc ∧
      split_location loc = Except.ok (c, k) ∧
      row = ⟨some (pyTake pd 10), job.type, job.name,
             company_field job, some c, some k⟩ := by
  unfold extract_row at h
  split at h
  · simp at h
  next pd hpd =>
    split at h
    · simp at h
    next loc hloc =>
      split at h
      · simp at h
      next c k hsp =>
        exact ⟨pd, loc, c, k, hpd, hloc, hsp, (Except.ok.inj h).symm⟩

/-! ## Helper lemmas about the build loop -/

theorem transform_loop_error {results : List RawJob} {job : RawJob} {e : ExtractError}
    (hmem : job ∈ results) (herr : extract_row job = Except.error e) :
    ∀ acc, ∃ e2, transform_loop results acc = Except.error e2 := by
  induction results with
  | nil => cases hmem
  | cons hd tl ih =>
    intro acc
    rcases hx : extract_row hd with e3 | r
    · exact ⟨e3, by simp [transform_loop, hx]⟩
    · rcases List.mem_cons.mp hmem with rfl | hmem'
      · rw [hx] at herr; simp at herr
      · obtain ⟨e2, h2⟩ := ih hmem' (acc ++ [r])
        exact ⟨e2, by simp only [transform_loop, hx]; exact h2⟩

theorem transform_loop_ok {results : List RawJob}
    (hall : ∀ job ∈ results, ∃ r, extract_row job = Except.ok r) :
    ∀ acc, ∃ rs, transform_loop results acc = Except.ok (acc ++ rs) ∧
      List.Forall₂ (fun j r => extract_row j = Except.ok r) results rs := by
  induction results with
  | nil => exact fun acc => ⟨[], by simp [transform_loop], List.Forall₂.nil⟩
  | cons hd tl ih =>
    intro acc
    obtain ⟨r, hr⟩ := hall hd (List.mem_cons_self hd tl)
    obtain ⟨rs, hrs, hf⟩ := ih (fun j hj => hall j (List.mem_cons_of_mem hd hj)) (acc ++ [r])
    refine ⟨r :: rs, ?_, List.Forall₂.cons hr hf⟩
    simp only [transform_loop, hr]
    rw [hrs]
    simp

/-- Any member of the input whose extraction raises aborts the whole
`transform_data`: no DataFrame is produced. -/
theorem transform_data_error {results : List RawJob} {job : RawJob} {e : ExtractError}
    (hmem : job ∈ results) (herr : extract_row job = Except.error e) :
    ∃ e2, transform_data results = Except.error e2 := by
  obtain ⟨e2, h2⟩ := transform_loop_error hmem herr []
  exact ⟨e2, by simp [transform_data, h2]⟩

/-! ## C1 — location split -/

/-- C1 counterexample: on the spec's own record
`locations: [{"name": "New York, NY, USA"}]`, extraction does NOT split on
the first comma into city `"New York"` and country `" NY, USA"`; line 74
splits on every comma, producing three pieces, and the two-variable
unpacking raises `ValueError`, so extraction fails. -/
theorem C1_counterexample :
    extract_row nyJob = Except.error (ExtractError.unpackMismatch 3) := rfl

/-- C1 (amended): for a record whose first location has a `name` containing
exactly one comma, extraction yields the left part as city and the right
part as country, untrimmed; but when the `name` contains two or more
commas, line 74's split produces that many pieces plus one and the
unpacking raises `ValueError`, so extraction fails. -/
theorem C1_location_split (job : RawJob) (pd s : String) (loc : PyDict)
    (rest : List PyDict)
    (hpd : job.publication_date = some pd)
    (hlocs : job.locations = some (loc :: rest))
    (hname : pyDictGet loc "name" = some s) :
    (∀ a b : String, ',' ∉ a.data → ',' ∉ b.data → s = a ++ "," ++ b →
      extract_row job = Except.ok ⟨some (pyTake pd 10), job.type, job.name,
        company_field job, some a, some b⟩) ∧
    (2 ≤ s.data.count ',' →
      extract_row job = Except.error (.unpackMismatch (s.data.count ',' + 1))) := by
  have hlf : location_field job = some s := by
    unfold location_field; rw [hlocs]; exact hname
  constructor
  · intro a b ha hb hs
    have hsdata : s.data = a.data ++ ',' :: b.data := by
      rw [hs, String.data_append, String.data_append]; simp
    have hcon : pyContains s ',' = true := by
      unfold pyContains; rw [hsdata]; simp
    have hsplit : pySplit s ',' = [a, b] := by
      unfold pySplit
      rw [hsdata, splitChar_append b.data ha, splitChar_of_not_mem hb]
      rfl
    have hsl : split_location s = Except.ok (a, b) := by
      unfold split_location; rw [hcon, hsplit]; simp
    simp only [extract_row, hpd, hlf, hsl]
  · intro h2
    have hmem : ',' ∈ s.data := List.count_pos_iff.mp (by omega)
    have hcon : pyContains s ',' = true := by
      unfold pyContains; simpa using hmem
    have hlen : (pySplit s ',').length = s.data.count ',' + 1 := by
      unfold pySplit; rw [List.length_map, length_splitChar]
    rcases hps : pySplit s ',' with _ | ⟨p0, _ | ⟨p1, _ | ⟨p2, ps⟩⟩⟩ <;>
      rw [hps] at hlen
    · simp only [List.length_nil] at hlen; omega
    · simp only [List.length_cons, List.length_nil] at hlen; omega
    · simp only [List.length_cons, List.length_nil] at hlen; omega
    · have hsl : split_location s =
          Except.error (.unpackMismatch (s.data.count ',' + 1)) := by
        unfold split_location
        rw [hcon, hps]
        simp only [List.length_cons] at hlen ⊢
        rw [← hlen]
        simp
      simp only [extract_row, hpd, hlf, hsl]

/-- C1 witness: the spec's `"Austin,USA"` record, whose location holds
exactly one comma, extracts to city `"Austin"`, country `"USA"`. -/
theorem C1_location_split_witness :
    extract_row austinJob = Except.ok ⟨some (pyTake "2023-05-01T12:00:00Z" 10),
      austinJob.type, austinJob.name, company_field austinJob,
      some "Austin", some "USA"⟩ :=
  (C1_location_split austinJob "2023-05-01T12:00:00Z" "Austin,USA"
    [("name", "Austin,USA")] [] rfl rfl rfl).1
    "Austin" "USA" (by decide) (by decide) (by decide)

/-! ## C2 — company fallback -/

/-- C2 counterexample: a record with `company: {}` (present, empty) yields
the literal string `"N/A"`, not the no-value marker: Python's `{}` is
falsy, so line 72's conditional takes the `'N/A'` branch. -/
theorem C2_counterexample :
    Except.map OutputRow.company (extract_row emptyCompanyJob) =
      Except.ok (some "N/A") ∧ some "N/A" ≠ (none : Option String) :=
  ⟨rfl, by decide⟩

/-- C2 (amended): the extracted company is `"N/A"` when the `company` key
is absent AND when it is present but empty (`company: {}`), since the
empty mapping is falsy; only for a present, non-empty `company` mapping is
`name` looked up, giving it verbatim, or the no-value marker when the
non-empty mapping lacks `name`. -/
theorem C2_company_fallback (job : RawJob) (row : OutputRow)
    (hok : extract_row job = Except.ok row) :
    (job.company = none → row.company = some "N/A") ∧
    (job.company = some [] → row.company = some "N/A") ∧
    (∀ d, job.company = some d → d ≠ [] →
      ((∀ v, pyDictGet d "name" = some v → row.company = some v) ∧
       (pyDictGet d "name" = none → row.company = none))) := by
  obtain ⟨pd, loc, c, k, hpd, hlf, hsl, hrow⟩ := extract_row_ok_anatomy hok
  subst hrow
  refine ⟨?_, ?_, ?_⟩
  · intro h; simp [company_field, h]
  · intro h; simp [company_field, h]
  · intro d h hne
    rcases d with _ | ⟨p, ps⟩
    · exact absurd rfl hne
    · constructor
      · intro v hv; simp [company_field, h, hv]
      · intro hv; simp [company_field, h, hv]

/-- C2 witness: a record with `company: {"name": "Acme"}` extracts the
company name verbatim (and the absent/empty branches hold vacuously). -/
theorem C2_company_fallback_witness :
    (namedCompanyJob.company = none → namedCompanyRow.company = some "N/A") ∧
    (namedCompanyJob.company = some [] → namedCompanyRow.company = some "N/A") ∧
    (∀ d, namedCompanyJob.company = some d → d ≠ [] →
      ((∀ v, pyDictGet d "name" = some v → namedCompanyRow.company = some v) ∧
       (pyDictGet d "name" = none → namedCompanyRow.company = none))) :=
  C2_company_fallback namedCompanyJob namedCompanyRow rfl

/-! ## C5 — nullability of row fields -/

/-- C5 counterexample: a record lacking `type` extracts successfully, yet
its `job_type` field is Python `None`, not a string — absence of `type`,
`name` or a company name is NOT normalized to a marker string. -/
theorem C5_counterexample :
    extract_row bareJob = Except.ok bareRow ∧ bareRow.job_type = none ∧
    bareRow.job = none :=
  ⟨rfl, rfl, rfl⟩

/-- C5 (amended): after a successful extraction, `publication_date`,
`city` and `country` are always strings (never the no-value marker), but
`job_type` and `job` are the verbatim lookups of `type`/`name`, which are
the no-value marker when those keys are absent. -/
theorem C5_nullability (job : RawJob) (row : OutputRow)
    (hok : extract_row job = Except.ok row) :
    row.publication_date ≠ none ∧ row.city ≠ none ∧ row.country ≠ none ∧
    row.job_type = job.type ∧ row.job = job.name := by
  obtain ⟨pd, loc, c, k, hpd, hlf, hsl, hrow⟩ := extract_row_ok_anatomy hok
  subst hrow
  exact ⟨by simp, by simp, by simp, rfl, rfl⟩

/-- C5 witness: the `"Austin,USA"` record instantiates the nullability
facts. -/
theorem C5_nullability_witness :
    austinRow.publication_date ≠ none ∧ austinRow.city ≠ none ∧
    austinRow.country ≠ none ∧ austinRow.job_type = austinJob.type ∧
    austinRow.job = austinJob.name :=
  C5_nullability austinJob austinRow rfl

/-! ## C3 — all-or-nothing table build -/

/-- C3: if any record of the input collection fails extraction, the whole
`transform_data` raises and no table — partial or otherwise — is
returned. -/
theorem C3_all_or_nothing (results : List RawJob) (job : RawJob)
    (e : ExtractError) (hmem : job ∈ results)
    (herr : extract_row job = Except.error e) :
    (∃ e2, transform_data results = Except.error e2) ∧
    ∀ t, transform_data results ≠ Except.ok t := by
  obtain ⟨e2, h2⟩ := transform_data_error hmem herr
  refine ⟨⟨e2, h2⟩, fun t ht => ?_⟩
  rw [ht] at h2
  simp at h2

/-- C3 witness: three valid records followed by one lacking
`publication_date` make the whole build fail; no 3-row table appears. -/
theorem C3_all_or_nothing_witness :
    noDateJob ∈ c3Collection ∧
    ((∃ e2, transform_data c3Collection = Except.error e2) ∧
     ∀ t, transform_data c3Collection ≠ Except.ok t) :=
  ⟨by decide,
   C3_all_or_nothing c3Collection noDateJob ExtractError.noneSlice (by decide) rfl⟩

/-! ## C4 — shape of the built table -/

/-- C4 counterexample: a well-formed one-record collection builds a table
whose column count is 6, not the five the claim states — the fixed schema
is `publication_date, job_type, job, company, city, country`. -/
theorem C4_counterexample :
    Except.map (fun t => t.cols.length) (transform_data [bareJob]) =
      Except.ok 6 ∧ (6 : Nat) ≠ 5 :=
  ⟨rfl, by decide⟩

/-- C4 (amended): for every collection whose records all extract
successfully, `transform_data` returns a table with the six fixed columns
in fixed order and one row per record, rows in input order (the i-th row
is the extraction of the i-th record). -/
theorem C4_table_shape (results : List RawJob)
    (hall : ∀ job ∈ results, ∃ r, extract_row job = Except.ok r) :
    ∃ t, transform_data results = Except.ok t ∧
      t.cols = output_columns ∧ t.cols.length = 6 ∧
      t.rows.length = results.length ∧
      List.Forall₂ (fun j r => extract_row j = Except.ok r) results t.rows := by
  obtain ⟨rs, hrs, hf⟩ := transform_loop_ok hall []
  refine ⟨⟨output_columns, rs⟩, ?_, rfl, rfl, ?_, hf⟩
  · simp only [transform_data, hrs, List.nil_append]
  · exact hf.length_eq.symm

/-- C4 witness: the two-record collection builds a 2-row, 6-column table
with the rows extracted in order. -/
theorem C4_table_shape_witness :
    ∃ t, transform_data c4Collection = Except.ok t ∧
      t.cols = output_columns ∧ t.cols.length = 6 ∧
      t.rows.length = c4Collection.length ∧
      List.Forall₂ (fun j r => extract_row j = Except.ok r) c4Collection t.rows :=
  C4_table_shape c4Collection (by
    intro j hj
    rcases List.mem_cons.mp hj with rfl | hj2
    · exact ⟨austinRow, rfl⟩
    · rcases List.mem_cons.mp hj2 with rfl | h
      · exact ⟨bareRow, rfl⟩
      · cases h)

/-! ## C6 — publication date truncation -/

/-- C6: when `publication_date` is present and extraction succeeds, the
extracted value is the first 10 characters of the raw string, and a string
of at most 10 characters is kept whole. -/
theorem C6_publication_date (job : RawJob) (s : String) (row : OutputRow)
    (hpd : job.publication_date = some s)
    (hok : extract_row job = Except.ok row) :
    row.publication_date = some (String.mk (s.data.take 10)) ∧
    (s.data.length ≤ 10 → row.publication_date = some s) := by
  obtain ⟨pd, loc, c, k, hpd2, hlf, hsl, hrow⟩ := extract_row_ok_anatomy hok
  rw [hpd] at hpd2
  obtain rfl : s = pd := Option.some.inj hpd2
  subst hrow
  refine ⟨rfl, fun hlen => ?_⟩
  show some (pyTake s 10) = some s
  unfold pyTake
  rw [List.take_of_length_le hlen]

/-- C6 witness: `"2023-05-01T12:00:00Z"` truncates to `"2023-05-01"`. -/
theorem C6_publication_date_witness :
    austinRow.publication_date =
      some (String.mk ("2023-05-01T12:00:00Z".data.take 10)) ∧
    ("2023-05-01T12:00:00Z".data.length ≤ 10 →
      austinRow.publication_date = some "2023-05-01T12:00:00Z") :=
  C6_publication_date austinJob "2023-05-01T12:00:00Z" austinRow rfl rfl

/-! ## C7 — missing or comma-free location -/

/-- C7: when `locations` is absent or empty, or the first location's
`name` holds no comma, both extracted city and country are the literal
`"N/A"`. -/
theorem C7_no_comma_fallback (job : RawJob) (row : OutputRow)
    (hok : extract_row job = Except.ok row)
    (hcase : job.locations = none ∨ job.locations = some [] ∨
      ∃ loc rest s, job.locations = some (loc :: rest) ∧
        pyDictGet loc "name" = some s ∧ ',' ∉ s.data) :
    row.city = some "N/A" ∧ row.country = some "N/A" := by
  obtain ⟨pd, loc0, c, k, hpd, hlf, hsl, hrow⟩ := extract_row_ok_anatomy hok
  subst hrow
  have hNA : ∀ s2 : String, location_field job = some s2 → ',' ∉ s2.data →
      c = "N/A" ∧ k = "N/A" := by
    intro s2 hs2 hnc
    rw [hlf] at hs2
    obtain rfl : loc0 = s2 := Option.some.inj hs2
    have hfalse : pyContains loc0 ',' = false := by
      unfold pyContains; simpa using hnc
    unfold split_location at hsl
    rw [hfalse] at hsl
    simp at hsl
    exact ⟨hsl.1.symm, hsl.2.symm⟩
  have hck : c = "N/A" ∧ k = "N/A" := by
    rcases hcase with h | h | ⟨loc, rest, s, hl, hn, hs⟩
    · refine hNA "N/A" ?_ (by decide)
      unfold location_field; rw [h]
    · refine hNA "N/A" ?_ (by decide)
      unfold location_field; rw [h]
    · refine hNA s ?_ hs
      unfold location_field; rw [hl]; exact hn
  simp [hck.1, hck.2]

/-- C7 witness: the record with `locations: [{"name": "Remote"}]` gets
city and country `"N/A"`. -/
theorem C7_no_comma_fallback_witness :
    namedCompanyRow.city = some "N/A" ∧ namedCompanyRow.country = some "N/A" :=
  C7_no_comma_fallback namedCompanyJob namedCompanyRow rfl
    (Or.inr (Or.inr ⟨[("name", "Remote")], [], "Remote", rfl, rfl, by decide⟩))

/-! ## C8 — hardcoded upload destination -/

/-- C8: the destination URI handed to the external upload command is the
hardcoded literal for every configured bucket and folder: two invocations
differing only in bucket/folder run the identical command, so the
configuration has no influence on where the file goes. -/
theorem C8_hardcoded_destination (file_name bucket folder bucket2 folder2 : String) :
    upload_command file_name bucket folder = upload_command file_name bucket2 folder2 ∧
    (upload_command file_name bucket folder).getLast? =
      some "s3://py-project-jobs-s3bucket/input/jobs.csv" :=
  ⟨rfl, rfl⟩

/-! ## C9 — upload exit status ignored -/

/-- C9: `upload_to_s3` returns normally for every exit status of the
invoked process — including nonzero — because the `CompletedProcess`
(and its `returncode`, which does carry the status) is never inspected. -/
theorem C9_exit_status_ignored (file_name bucket folder : String) (exit_status : Int) :
    upload_to_s3 file_name bucket folder exit_status = Except.ok () ∧
    (subprocess_run (upload_command file_name bucket folder) exit_status).returncode =
      exit_status :=
  ⟨rfl, rfl⟩

/-! ## C10 — first location present but nameless -/

/-- C10: when `locations` is present and non-empty but its first element
lacks the `name` key, `job_location` is Python `None`, line 74's
`',' in None` raises `TypeError`, and the whole table build aborts —
there is no `"N/A"` fallback on this path. -/
theorem C10_missing_location_name (job : RawJob) (loc : PyDict)
    (rest : List PyDict)
    (hlocs : job.locations = some (loc :: rest))
    (hname : pyDictGet loc "name" = none) :
    (∃ e, extract_row job = Except.error e) ∧
    ∀ results, job ∈ results → ∀ t, transform_data results ≠ Except.ok t := by
  have hlf : location_field job = none := by
    unfold location_field; rw [hlocs]; exact hname
  have herr : ∃ e, extract_row job = Except.error e := by
    rcases hpd : job.publication_date with _ | pd
    · exact ⟨.noneSlice, by simp only [extract_row, hpd]⟩
    · exact ⟨.noneContains, by simp only [extract_row, hpd, hlf]⟩
  obtain ⟨e, he⟩ := herr
  refine ⟨⟨e, he⟩, fun results hmem t ht => ?_⟩
  obtain ⟨e2, h2⟩ := transform_data_error hmem he
  rw [ht] at h2
  simp at h2

/-- C10 witness: a record whose only location is `{"country": "USA"}`
fails extraction and poisons any collection containing it. -/
theorem C10_missing_location_name_witness :
    (∃ e, extract_row noNameLocationJob = Except.error e) ∧
    ∀ results, noNameLocationJob ∈ results →
      ∀ t, transform_data results ≠ Except.ok t :=
  C10_missing_location_name noNameLocationJob [("country", "USA")] [] rfl rfl
